import Mathlib

/-!
Verification of the youtube-dl tool module (`core.py` / `youtube_tool.py`).

The Python code is embedded shallowly:

* Pure string manipulation (`Path.stem`, `expanduser`, `str.replace`,
  prefix tests, path joining) is translated to executable functions on
  `String` / `List Char`.
* The filesystem is an explicit value `FS` (regular files and directories,
  identified by the literal path strings the code constructs; aliasing of
  relative and absolute spellings of the same file is not modelled).
* The external collaborators (yt-dlp metadata extraction, the yt-dlp
  download calls, the ffprobe duration probe, the ffmpeg screenshot call)
  are oracles collected in `Env`; each operation additionally returns the
  list of externally visible `Effect`s it performed, so that claims of the
  form "no fetch happens" are statable.
* Python exceptions are `PyError` values propagated through `Except`;
  `execute`'s `try/except ValueError/except Exception` wrapper becomes the
  final `match` in `execute`.
-/

/-- Split a character list at a separator, like Python `str.split(sep)`. -/
def splitOnChar (c : Char) : List Char → List (List Char)
  | [] => [[]]
  | x :: xs =>
    match splitOnChar c xs with
    | [] => [[]]
    | h :: t => if x = c then [] :: h :: t else (x :: h) :: t

/-- The final path component (what `pathlib.PurePath.name` returns for
paths without a trailing slash), as a character list. -/
def pathNameChars (s : String) : List Char :=
  (splitOnChar '/' s.data).getLastD []

/-- Index of the last '.' in a character list, if any. -/
def lastDotIdx (cs : List Char) : Option Nat :=
  ((cs.enum.filter (fun p => p.2 == '.')).map (fun p => p.1)).getLast?

/-- `pathlib.PurePath.stem`: the final component without its last suffix.
A suffix only counts when its dot is neither the first nor the last
character of the name (CPython's `0 < i < len(name) - 1`). -/
def pathStem (s : String) : String :=
  let name := pathNameChars s
  match lastDotIdx name with
  | some i => if 0 < i ∧ i < name.length - 1 then String.mk (name.take i) else String.mk name
  | none => String.mk name

/-- `dir / name` for pathlib paths written without trailing slashes. -/
def joinPath (dir name : String) : String := dir ++ "/" ++ name

/-- Python `s.startswith(pre)`. -/
def strStartsWith (pre s : String) : Bool := pre.data.isPrefixOf s.data

/-- `Path.expanduser`: replaces a leading `~` component by the home
directory (the `~user` form is not modelled; no claim exercises it). -/
def expanduser (home s : String) : String :=
  match s.data with
  | ['~'] => home
  | '~' :: '/' :: rest => home ++ String.mk ('/' :: rest)
  | _ => s

/-- `Path.absolute()` for the paths the code builds: a relative path is
interpreted against the current working directory. -/
def absoluteStr (cwd s : String) : String :=
  match s.data with
  | '/' :: _ => s
  | _ => joinPath cwd s

/-- Fuel-driven worker for `pyReplace`; the fuel is the input length, so
the zero-fuel arm is never reached on the calls `pyReplace` makes. -/
def replaceFuel (pat rep : List Char) : Nat → List Char → List Char
  | _, [] => []
  | 0, s => s
  | fuel + 1, c :: rest =>
    if pat.isPrefixOf (c :: rest) then
      rep ++ replaceFuel pat rep fuel (List.drop (pat.length - 1) rest)
    else c :: replaceFuel pat rep fuel rest

/-- Python `s.replace(pat, rep)`: replace every non-overlapping occurrence,
scanning left to right.  (Python's behaviour for an empty `pat` is not
modelled; the code only ever replaces ".mp4".) -/
def pyReplace (s pat rep : String) : String :=
  if pat.data.isEmpty then s
  else String.mk (replaceFuel pat.data rep.data s.data.length s.data)

/-- Python truthiness of an optional string (`not x` is true for both a
missing key and the empty string). -/
def truthyStr : Option String → Bool
  | none => false
  | some s => !s.data.isEmpty

/-- Last character of a string, used to separate paths with different
extensions. -/
def lastChar (s : String) : Option Char := s.data.getLast?

/-- A raised Python exception: its class name and its `str(e)` message. -/
structure PyError where
  name : String
  msg : String

/-- A `ValueError` with the given message. -/
def valueError (m : String) : PyError := ⟨"ValueError", m⟩

/-- Outcome of the ffprobe duration probe in `_load_from_file`.  The three
middle constructors are the exception classes the code catches
(`subprocess.CalledProcessError`, `json.JSONDecodeError`, `KeyError`);
`noDuration` is a successful probe whose JSON lacks `format.duration`;
`raised` is any other exception escaping the probe block (e.g. a
`FileNotFoundError` because the ffprobe binary is missing, or a
`ValueError` from `float(...)` on an unparseable duration). -/
inductive ProbeOutcome where
  | ok (duration : Rat)
  | noDuration
  | procError (msg : String)
  | jsonError (msg : String)
  | keyError (msg : String)
  | raised (name msg : String)

/-- The duration `_load_from_file` ends up with for a probe outcome that
does not raise. -/
def probeDuration : ProbeOutcome → Rat
  | .ok d => d
  | _ => 0

/-- The fields of the yt-dlp `extract_info` dictionary that
`_load_from_url` reads, each optional as in a Python dict. -/
structure YtInfo where
  title : Option String := none
  id : Option String := none
  duration : Option Rat := none
  description : Option String := none
  uploader : Option String := none

/-- `core.VideoInfo`, field for field. -/
structure VideoInfo where
  source : String
  type : String
  title : String
  id : String
  duration : Rat
  description : String := ""
  uploader : String := ""
  audio_path : Option String := none
  video_path : Option String := none

/-- Which yt-dlp option set a download call used. -/
inductive DlMode where
  | audio
  | video

/-- Externally visible actions, recorded as a trace. -/
inductive Effect where
  | extractMeta (url : String)
  | download (mode : DlMode) (url : String)
  | probe (path : String)
  | ffmpeg (video ts out : String)
  | rename (src dst : String)

/-- The filesystem: regular files and directories by path string. -/
structure FS where
  files : List String
  dirs : List String

def FS.isFile (fs : FS) (p : String) : Bool := fs.files.contains p

def FS.pathExists (fs : FS) (p : String) : Bool :=
  fs.files.contains p || fs.dirs.contains p

def FS.addFile (fs : FS) (p : String) : FS := ⟨p :: fs.files, fs.dirs⟩

def FS.addFiles (fs : FS) (ps : List String) : FS := ⟨ps ++ fs.files, fs.dirs⟩

def FS.rename (fs : FS) (src dst : String) : FS := ⟨dst :: fs.files.erase src, fs.dirs⟩

/-- The world the code runs in: home and working directory, whether the
`yt_dlp` import succeeded, and oracles for each external call.  The two
download oracles yield the list of files the library writes (or the
exception it raises); the ffmpeg oracle yields `none` on exit status 0 and
`some msg` for the `CalledProcessError` message otherwise. -/
structure Env where
  home : String
  cwd : String
  ytAvailable : Bool
  extractInfo : String → Except PyError YtInfo
  probe : String → ProbeOutcome
  audioRun : String → Except PyError (List String)
  videoRun : String → Except PyError (List String)
  ffmpegRun : String → String → String → Option String

deriving instance DecidableEq for PyError
deriving instance DecidableEq for ProbeOutcome
deriving instance DecidableEq for VideoInfo
deriving instance DecidableEq for DlMode
deriving instance DecidableEq for Effect
deriving instance DecidableEq for FS

/-- `VideoLoader._is_url`. -/
def is_url (source : String) : Bool :=
  strStartsWith "http://" source || strStartsWith "https://" source ||
    strStartsWith "www." source

/-- `VideoLoader._load_from_url`. -/
def load_from_url (env : Env) (url : String) : Except PyError VideoInfo × List Effect :=
  if !env.ytAvailable then
    (.error (valueError "yt-dlp is not installed. Install with: pip install yt-dlp"), [])
  else
    match env.extractInfo url with
    | .ok info =>
      (.ok { source := url, type := "url", title := info.title.getD "Unknown",
             id := info.id.getD url, duration := info.duration.getD 0,
             description := info.description.getD "", uploader := info.uploader.getD "" },
       [Effect.extractMeta url])
    | .error e => (.error (valueError s!"Failed to load URL {url}: {e.msg}"), [Effect.extractMeta url])

/-- `VideoLoader._load_from_file`.  Existence and regular-file checks come
first (error messages quote the unexpanded argument, as in the source);
then the ffprobe probe runs, with only the three listed exception classes
degraded to duration 0. -/
def load_from_file (env : Env) (fs : FS) (filepath : String) :
    Except PyError VideoInfo × List Effect :=
  let path := expanduser env.home filepath
  if !fs.pathExists path then (.error (valueError s!"File not found: {filepath}"), [])
  else if !fs.isFile path then (.error (valueError s!"Not a file: {filepath}"), [])
  else
    match env.probe path with
    | .raised n m => (.error ⟨n, m⟩, [Effect.probe path])
    | o =>
      (.ok { source := absoluteStr env.cwd path, type := "file",
             title := pathStem path, id := pathStem path,
             duration := probeDuration o }, [Effect.probe path])

/-- `VideoLoader.load`. -/
def load (env : Env) (fs : FS) (source : String) : Except PyError VideoInfo × List Effect :=
  if is_url source then load_from_url env source else load_from_file env fs source

/-- The alternate-extension fallback list of `download_audio`. -/
def audio_exts : List String := [".mp3", ".m4a", ".opus", ".wav"]

/-- The alternate-extension fallback list of `download_video`. -/
def video_exts : List String := [".mp4", ".webm", ".mkv"]

/-- The `for ext in [...]` scan: first extension whose
`dir / (stem + ext)` exists, together with that extension. -/
def findExisting (fs : FS) (dir stem : String) : List String → Option (String × String)
  | [] => none
  | ext :: rest =>
    let p := joinPath dir (stem ++ ext)
    if fs.pathExists p then some (p, ext) else findExisting fs dir stem rest

/-- `VideoLoader.download_audio`.  The inner
`raise ValueError("Could not find downloaded audio file")` is itself
caught by the surrounding `except Exception` and re-wrapped, hence the
doubled message in the last arm. -/
def download_audio (env : Env) (fs : FS) (url : String) (output_dir : String)
    (output_filename : String) (use_cache : Bool) :
    Except PyError String × FS × List Effect :=
  if !env.ytAvailable then (.error (valueError "yt-dlp is not installed"), fs, [])
  else
    let dir := expanduser env.home output_dir
    let output_path := joinPath dir output_filename
    if use_cache && fs.pathExists output_path then (.ok output_path, fs, [])
    else
      let stem := pathStem output_path
      match env.audioRun url with
      | .error e =>
        (.error (valueError s!"Failed to download audio: {e.msg}"), fs,
         [Effect.download DlMode.audio url])
      | .ok created =>
        let fs1 := fs.addFiles created
        if fs1.pathExists output_path then
          (.ok output_path, fs1, [Effect.download DlMode.audio url])
        else
          match findExisting fs1 dir stem audio_exts with
          | some pe =>
            (.ok output_path, fs1.rename pe.1 output_path,
             [Effect.download DlMode.audio url, Effect.rename pe.1 output_path])
          | none =>
            (.error (valueError "Failed to download audio: Could not find downloaded audio file"),
             fs1, [Effect.download DlMode.audio url])

/-- `VideoLoader.download_video`.  Unlike the audio variant, the fallback
scan renames only when the found extension differs from ".mp4" (and then
still returns the requested output path). -/
def download_video (env : Env) (fs : FS) (url : String) (output_dir : String)
    (output_filename : String) (use_cache : Bool) :
    Except PyError String × FS × List Effect :=
  if !env.ytAvailable then (.error (valueError "yt-dlp is not installed"), fs, [])
  else
    let dir := expanduser env.home output_dir
    let output_path := joinPath dir output_filename
    if use_cache && fs.pathExists output_path then (.ok output_path, fs, [])
    else
      let stem := pathStem output_path
      match env.videoRun url with
      | .error e =>
        (.error (valueError s!"Failed to download video: {e.msg}"), fs,
         [Effect.download DlMode.video url])
      | .ok created =>
        let fs1 := fs.addFiles created
        if fs1.pathExists output_path then
          (.ok output_path, fs1, [Effect.download DlMode.video url])
        else
          match findExisting fs1 dir stem video_exts with
          | some pe =>
            if pe.2 = ".mp4" then
              (.ok output_path, fs1, [Effect.download DlMode.video url])
            else
              (.ok output_path, fs1.rename pe.1 output_path,
               [Effect.download DlMode.video url, Effect.rename pe.1 output_path])
          | none =>
            (.error (valueError "Failed to download video: Could not find downloaded video file"),
             fs1, [Effect.download DlMode.video url])

/-- `VideoLoader.capture_screenshot`. -/
def capture_screenshot (env : Env) (fs : FS) (video_path timestamp output_path : String) :
    Except PyError String × FS × List Effect :=
  let vp := expanduser env.home video_path
  let op := expanduser env.home output_path
  if !fs.pathExists vp then (.error (valueError s!"Video file not found: {vp}"), fs, [])
  else
    match env.ffmpegRun vp timestamp op with
    | some m =>
      (.error (valueError s!"Failed to capture screenshot: {m}"), fs,
       [Effect.ffmpeg vp timestamp op])
    | none => (.ok op, fs.addFile op, [Effect.ffmpeg vp timestamp op])

/-- The persistent fields of `YouTubeDLTool` the facade reads
(`self.output_dir`, already user-expanded at construction, and the
configured `audio_only` default). -/
structure YouTubeDLTool where
  output_dir : String
  audio_only : Bool

/-- The keys `execute` reads from its input dict, each optional. -/
structure ToolInput where
  url : Option String := none
  audio_only : Option Bool := none
  output_filename : Option String := none
  use_cache : Option Bool := none
  capture_screenshot : Option Bool := none
  screenshot_time : Option String := none

/-- `amplifier_core.models.ToolResult` as the facade populates it: the
failure arm carries the error message and the optional "type" tag (absent
for the two validated early returns). -/
inductive ToolResult where
  | success (path : String) (metadata : VideoInfo) (screenshot_path : Option String)
  | failure (message : String) (etype : Option String)

deriving instance DecidableEq for ToolResult

/-- The screenshot filename derivation on line 112 of `youtube_tool.py`:
`output_filename.replace(".mp4", ".jpg") if output_filename else
"screenshot.jpg"`. -/
def screenshotFilename (ofn : Option String) : String :=
  if truthyStr ofn then pyReplace (ofn.getD "") ".mp4" ".jpg" else "screenshot.jpg"

/-- The download portion of `execute` (lines 94-107): remote sources fetch
audio or video per the effective flag and record the path on the
descriptor; a local source reuses `video_info.source` directly. -/
def downloadStep (t : YouTubeDLTool) (env : Env) (fs : FS) (url : String) (audioOnly : Bool)
    (ofn : Option String) (useCache : Bool) (info : VideoInfo) :
    Except PyError (String × VideoInfo) × FS × List Effect :=
  if info.type = "url" then
    if audioOnly then
      match download_audio env fs url t.output_dir
          (if truthyStr ofn then ofn.getD "" else "audio.mp3") useCache with
      | (.error e, fs2, ef) => (.error e, fs2, ef)
      | (.ok p, fs2, ef) => (.ok (p, { info with audio_path := some p }), fs2, ef)
    else
      match download_video env fs url t.output_dir
          (if truthyStr ofn then ofn.getD "" else "video.mp4") useCache with
      | (.error e, fs2, ef) => (.error e, fs2, ef)
      | (.ok p, fs2, ef) => (.ok (p, { info with video_path := some p }), fs2, ef)
  else (.ok (info.source, info), fs, [])

/-- The screenshot portion of `execute` (lines 110-116). -/
def screenshotStep (t : YouTubeDLTool) (env : Env) (fs : FS) (captureS : Bool) (st : String)
    (ofn : Option String) (p : String) : Except PyError (Option String) × FS × List Effect :=
  if captureS then
    match capture_screenshot env fs p st (joinPath t.output_dir (screenshotFilename ofn)) with
    | (.error e, fs3, ef) => (.error e, fs3, ef)
    | (.ok spath, fs3, ef) => (.ok (some spath), fs3, ef)
  else (.ok none, fs, [])

/-- The body of `execute`'s `try` block past the two validations: load,
then download, then screenshot, with exceptions short-circuiting. -/
def executeBody (t : YouTubeDLTool) (env : Env) (fs : FS) (url : String) (audioOnly : Bool)
    (ofn : Option String) (useCache captureS : Bool) (st : String) :
    Except PyError (String × VideoInfo × Option String) × FS × List Effect :=
  match load env fs url with
  | (.error e, ef1) => (.error e, fs, ef1)
  | (.ok info, ef1) =>
    match downloadStep t env fs url audioOnly ofn useCache info with
    | (.error e, fs2, ef2) => (.error e, fs2, ef1 ++ ef2)
    | (.ok pinfo, fs2, ef2) =>
      match screenshotStep t env fs2 captureS st ofn pinfo.1 with
      | (.error e, fs3, ef3) => (.error e, fs3, ef1 ++ ef2 ++ ef3)
      | (.ok sp, fs3, ef3) => (.ok (pinfo.1, pinfo.2, sp), fs3, ef1 ++ ef2 ++ ef3)

/-- `YouTubeDLTool.execute`: the two early validations, the body, and the
`except ValueError` / `except Exception` handlers mapping a raised
exception to a failure result tagged with the exception class name. -/
def execute (t : YouTubeDLTool) (env : Env) (fs : FS) (inp : ToolInput) :
    ToolResult × FS × List Effect :=
  if !truthyStr inp.url then (ToolResult.failure "Missing required parameter: url" none, fs, [])
  else if inp.capture_screenshot.getD false && !truthyStr inp.screenshot_time then
    (ToolResult.failure "screenshot_time required when capture_screenshot is True" none, fs, [])
  else
    match executeBody t env fs (inp.url.getD "") (inp.audio_only.getD t.audio_only)
        inp.output_filename (inp.use_cache.getD true) (inp.capture_screenshot.getD false)
        (inp.screenshot_time.getD "") with
    | (.ok r, fs2, eff) => (ToolResult.success r.1 r.2.1 r.2.2, fs2, eff)
    | (.error e, fs2, eff) =>
      if e.name = "ValueError" then (ToolResult.failure e.msg (some "ValueError"), fs2, eff)
      else (ToolResult.failure e.msg (some e.name), fs2, eff)

/-! ### String facts used by the theorems -/

theorem string_data_append (a b : String) : (a ++ b).data = a.data ++ b.data := by
  cases a
  cases b
  rfl

theorem lastChar_append (a b : String) (hb : b.data ≠ []) :
    lastChar (a ++ b) = lastChar b := by
  unfold lastChar
  rw [string_data_append, List.getLast?_append_of_ne_nil _ hb]

theorem lastChar_joinPath (d f : String) (hf : f.data ≠ []) :
    lastChar (joinPath d f) = lastChar f := by
  unfold joinPath
  rw [lastChar_append _ _ hf]

theorem ne_of_lastChar_ne (a b : String) (h : lastChar a ≠ lastChar b) : a ≠ b :=
  fun e => h (congrArg lastChar e)

theorem lastChar_expanduser (home s : String) (h2 : 2 ≤ s.data.length) :
    lastChar (expanduser home s) = lastChar s := by
  unfold expanduser
  split
  · next heq => rw [heq] at h2; simp at h2
  · next rest heq =>
    rw [lastChar_append]
    · unfold lastChar
      rw [heq]
      cases rest with
      | nil => rfl
      | cons c l => simp [List.getLast?_cons_cons]
    · simp
  · rfl

theorem joinPath_data_length (d f : String) :
    (joinPath d f).data.length = d.data.length + 1 + f.data.length := by
  unfold joinPath
  rw [string_data_append, string_data_append]
  simp
  omega

/-! ### Sample worlds and inputs for witnesses and counterexamples -/

/-- A tool configured with an absolute output directory and the default
`audio_only = True`. -/
def t0 : YouTubeDLTool := { output_dir := "/out", audio_only := true }

/-- A benign world: metadata extraction succeeds, downloads write the
default target files, the probe succeeds, ffmpeg exits 0. -/
def envOk : Env :=
  { home := "/h", cwd := "/w", ytAvailable := true,
    extractInfo := fun _ => .ok { title := some "T", id := some "vid", duration := some 10,
                                  description := some "", uploader := some "" },
    probe := fun _ => .ok 5,
    audioRun := fun _ => .ok ["/out/audio.mp3"],
    videoRun := fun _ => .ok ["/out/video.mp4"],
    ffmpegRun := fun _ _ _ => none }

/-- Like `envOk` but the duration probe raises an exception the code does
not catch (the ffprobe binary is missing). -/
def envProbeRaise : Env :=
  { envOk with probe := fun _ => .raised "FileNotFoundError" "no ffprobe" }

/-- Like `envOk` but the duration probe exits non-zero
(`subprocess.CalledProcessError`, which the code catches). -/
def envProbeProc : Env :=
  { envOk with probe := fun _ => .procError "ffprobe exited 1" }

/-- An empty filesystem. -/
def fsE : FS := ⟨[], []⟩

/-- A filesystem holding only the relative-path file `clip.mp4`. -/
def fsClip : FS := ⟨["clip.mp4"], []⟩

/-- A filesystem holding only `/out/clip.wav`. -/
def fsWav : FS := ⟨["/out/clip.wav"], []⟩

/-- A filesystem holding only `/out/video.webm`. -/
def fsWebm : FS := ⟨["/out/video.webm"], []⟩

/-- A request for the (existing, relative) local file `clip.mp4`. -/
def inpRel : ToolInput := { url := some "clip.mp4" }

/-! ### Claim theorems -/

/-- A request for a remote source with a screenshot requested but no
timestamp key. -/
def inp8 : ToolInput := { url := some "http://v", capture_screenshot := some true }

/-- Like `inp8` but with the timestamp key present and empty. -/
def inp9 : ToolInput :=
  { url := some "http://v", capture_screenshot := some true, screenshot_time := some "" }

/-- A request for a nonexistent local file. -/
def inp1 : ToolInput := { url := some "nsuch.mp4" }

/-- C8: with `capture_screenshot = true` and a non-truthy
`screenshot_time`, `execute` fails at once: the result is an untagged
failure, the filesystem is untouched, and no external effect (no
resolution, no download) has happened. -/
theorem screenshot_time_validated_early (t : YouTubeDLTool) (env : Env) (fs : FS)
    (inp : ToolInput) (hc : inp.capture_screenshot = some true)
    (ht : truthyStr inp.screenshot_time = false) :
    ∃ msg, execute t env fs inp = (ToolResult.failure msg none, fs, []) := by
  cases hu : truthyStr inp.url with
  | false => exact ⟨"Missing required parameter: url", by simp [execute, hu]⟩
  | true =>
    exact ⟨"screenshot_time required when capture_screenshot is True",
      by simp [execute, hu, hc, ht]⟩

/-- Witness for C8 at a concrete input. -/
theorem screenshot_time_validated_early_wit :
    inp8.capture_screenshot = some true ∧ truthyStr inp8.screenshot_time = false
    ∧ ∃ msg, execute t0 envOk fsE inp8 = (ToolResult.failure msg none, fsE, []) :=
  ⟨rfl, rfl, screenshot_time_validated_early t0 envOk fsE inp8 rfl rfl⟩

/-- C9: a `screenshot_time` key holding the empty string behaves exactly
like an absent key: the whole invocation is unchanged, and when the url is
present the result is the same validation failure, with no effects. -/
theorem empty_screenshot_time_like_absent (t : YouTubeDLTool) (env : Env) (fs : FS)
    (inp : ToolInput) (hc : inp.capture_screenshot = some true)
    (ht : inp.screenshot_time = some "") :
    execute t env fs inp = execute t env fs { inp with screenshot_time := none }
    ∧ (truthyStr inp.url = true →
        execute t env fs inp =
          (ToolResult.failure "screenshot_time required when capture_screenshot is True" none,
           fs, [])) := by
  obtain ⟨u, a, o, uc, cs, st⟩ := inp
  cases hc
  cases ht
  have hts : truthyStr (some "") = false := rfl
  have htn : truthyStr none = false := rfl
  constructor
  · cases hu : truthyStr u with
    | false => simp [execute, hu]
    | true => simp [execute, hu, hts, htn]
  · intro hu
    simp [execute, hu, hts, htn]

/-- Witness for C9 at a concrete input. -/
theorem empty_screenshot_time_like_absent_wit :
    inp9.capture_screenshot = some true ∧ inp9.screenshot_time = some ""
    ∧ (execute t0 envOk fsE inp9 = execute t0 envOk fsE { inp9 with screenshot_time := none }
      ∧ (truthyStr inp9.url = true →
          execute t0 envOk fsE inp9 =
            (ToolResult.failure "screenshot_time required when capture_screenshot is True" none,
             fsE, []))) :=
  ⟨rfl, rfl, empty_screenshot_time_like_absent t0 envOk fsE inp9 rfl rfl⟩

/-- C1: whenever the body of the `try` block raises an exception `e`, the
facade returns a failure carrying `str(e)` and the exception's class name
as the tag; the tag equals "ValueError" exactly for anticipated
(`ValueError`) failures.  Nothing propagates past `execute`, which is
total by construction. -/
theorem execute_catches_all_errors (t : YouTubeDLTool) (env : Env) (fs : FS) (inp : ToolInput)
    (e : PyError) (fs2 : FS) (eff : List Effect)
    (hurl : truthyStr inp.url = true)
    (hval : (inp.capture_screenshot.getD false && !truthyStr inp.screenshot_time) = false)
    (hbody : executeBody t env fs (inp.url.getD "") (inp.audio_only.getD t.audio_only)
        inp.output_filename (inp.use_cache.getD true) (inp.capture_screenshot.getD false)
        (inp.screenshot_time.getD "") = (Except.error e, fs2, eff)) :
    execute t env fs inp = (ToolResult.failure e.msg (some e.name), fs2, eff)
    ∧ ((execute t env fs inp).1 = ToolResult.failure e.msg (some "ValueError") ↔
        e.name = "ValueError") := by
  have hmain : execute t env fs inp = (ToolResult.failure e.msg (some e.name), fs2, eff) := by
    simp only [execute, hurl, hval, hbody, Bool.not_true, Bool.false_eq_true, if_false]
    split
    · next hn => rw [hn]
    · rfl
  refine ⟨hmain, ?_⟩
  rw [hmain]
  simp

/-- Witness for C1 at a concrete input whose resolution raises. -/
theorem execute_catches_all_errors_wit :
    truthyStr inp1.url = true
    ∧ (inp1.capture_screenshot.getD false && !truthyStr inp1.screenshot_time) = false
    ∧ executeBody t0 envOk fsE (inp1.url.getD "") (inp1.audio_only.getD t0.audio_only)
        inp1.output_filename (inp1.use_cache.getD true) (inp1.capture_screenshot.getD false)
        (inp1.screenshot_time.getD "") =
        (Except.error (valueError "File not found: nsuch.mp4"), fsE, [])
    ∧ (execute t0 envOk fsE inp1 =
        (ToolResult.failure (valueError "File not found: nsuch.mp4").msg
          (some (valueError "File not found: nsuch.mp4").name), fsE, [])
      ∧ ((execute t0 envOk fsE inp1).1 =
          ToolResult.failure (valueError "File not found: nsuch.mp4").msg (some "ValueError") ↔
          (valueError "File not found: nsuch.mp4").name = "ValueError")) :=
  ⟨rfl, rfl, rfl,
    execute_catches_all_errors t0 envOk fsE inp1 (valueError "File not found: nsuch.mp4")
      fsE [] rfl rfl rfl⟩

/-- C2: provided the yt-dlp library is importable, both fetches return a
cached target immediately — unchanged path, unchanged filesystem, no
external effect at all (so no download and no content validation) — and
with `use_cache = false` the download call is made regardless of the
filesystem's contents. -/
theorem fetch_cache_semantics (env : Env) (fs : FS) (url dir fn : String)
    (hyt : env.ytAvailable = true) :
    (fs.pathExists (joinPath (expanduser env.home dir) fn) = true →
        download_audio env fs url dir fn true =
          (Except.ok (joinPath (expanduser env.home dir) fn), fs, [])
      ∧ download_video env fs url dir fn true =
          (Except.ok (joinPath (expanduser env.home dir) fn), fs, []))
    ∧ (Effect.download DlMode.audio url ∈ (download_audio env fs url dir fn false).2.2
      ∧ Effect.download DlMode.video url ∈ (download_video env fs url dir fn false).2.2) := by
  refine ⟨fun h => ⟨?_, ?_⟩, ?_, ?_⟩
  · simp [download_audio, hyt, h]
  · simp [download_video, hyt, h]
  · simp only [download_audio, hyt, Bool.not_true, Bool.false_eq_true, if_false,
      Bool.false_and]
    cases ha : env.audioRun url with
    | error e => simp [ha]
    | ok created =>
      simp only [ha]
      split
      · simp
      · split <;> simp
  · simp only [download_video, hyt, Bool.not_true, Bool.false_eq_true, if_false,
      Bool.false_and]
    cases hv : env.videoRun url with
    | error e => simp [hv]
    | ok created =>
      simp only [hv]
      split
      · simp
      · split
        · split <;> simp
        · simp

/-- Witness for C2 at a concrete cached file. -/
theorem fetch_cache_semantics_wit :
    envOk.ytAvailable = true
    ∧ ((fsWav.pathExists (joinPath (expanduser envOk.home "/out") "clip.wav") = true →
          download_audio envOk fsWav "http://v" "/out" "clip.wav" true =
            (Except.ok (joinPath (expanduser envOk.home "/out") "clip.wav"), fsWav, [])
        ∧ download_video envOk fsWav "http://v" "/out" "clip.wav" true =
            (Except.ok (joinPath (expanduser envOk.home "/out") "clip.wav"), fsWav, []))
      ∧ (Effect.download DlMode.audio "http://v" ∈
          (download_audio envOk fsWav "http://v" "/out" "clip.wav" false).2.2
        ∧ Effect.download DlMode.video "http://v" ∈
          (download_video envOk fsWav "http://v" "/out" "clip.wav" false).2.2)) :=
  ⟨rfl, fetch_cache_semantics envOk fsWav "http://v" "/out" "clip.wav" rfl⟩

/-! ### Inversion helpers -/

/-- A successful `execute` run passed both validations and ran the body to
an `ok` value. -/
theorem execute_success_body (t : YouTubeDLTool) (env : Env) (fs : FS) (inp : ToolInput)
    (p : String) (info : VideoInfo) (sp : Option String)
    (hsucc : (execute t env fs inp).1 = ToolResult.success p info sp) :
    truthyStr inp.url = true
    ∧ (inp.capture_screenshot.getD false && !truthyStr inp.screenshot_time) = false
    ∧ ∃ fs2 eff, executeBody t env fs (inp.url.getD "") (inp.audio_only.getD t.audio_only)
        inp.output_filename (inp.use_cache.getD true) (inp.capture_screenshot.getD false)
        (inp.screenshot_time.getD "") = (Except.ok (p, info, sp), fs2, eff) := by
  cases hu : truthyStr inp.url with
  | false => simp [execute, hu] at hsucc
  | true =>
    cases hv : (inp.capture_screenshot.getD false && !truthyStr inp.screenshot_time) with
    | true => simp [execute, hu, hv] at hsucc
    | false =>
      refine ⟨rfl, rfl, ?_⟩
      rcases hb : executeBody t env fs (inp.url.getD "") (inp.audio_only.getD t.audio_only)
          inp.output_filename (inp.use_cache.getD true) (inp.capture_screenshot.getD false)
          (inp.screenshot_time.getD "") with ⟨r, fs2, eff⟩
      cases r with
      | error e =>
        by_cases hn : e.name = "ValueError" <;>
          simp [execute, hu, hv, hb, hn] at hsucc
      | ok r0 =>
        obtain ⟨p0, i0, s0⟩ := r0
        simp [execute, hu, hv, hb] at hsucc
        obtain ⟨h1, h2, h3⟩ := hsucc
        subst h1
        subst h2
        subst h3
        exact ⟨fs2, eff, rfl⟩

/-- A successful body run decomposes into a successful load, download step
and screenshot step, with the trace being their concatenation. -/
theorem executeBody_ok_parts (t : YouTubeDLTool) (env : Env) (fs : FS) (url : String)
    (ao : Bool) (ofn : Option String) (uc cap : Bool) (st : String)
    (p : String) (info : VideoInfo) (sp : Option String) (fs3 : FS) (eff : List Effect)
    (h : executeBody t env fs url ao ofn uc cap st = (.ok (p, info, sp), fs3, eff)) :
    ∃ info0 ef1 fs2 ef2 ef3,
      load env fs url = (.ok info0, ef1)
      ∧ downloadStep t env fs url ao ofn uc info0 = (.ok (p, info), fs2, ef2)
      ∧ screenshotStep t env fs2 cap st ofn p = (.ok sp, fs3, ef3)
      ∧ eff = ef1 ++ ef2 ++ ef3 := by
  unfold executeBody at h
  rcases hl : load env fs url with ⟨r1, ef1⟩
  rw [hl] at h
  cases r1 with
  | error e => simp at h
  | ok info0 =>
    dsimp only at h
    rcases hd : downloadStep t env fs url ao ofn uc info0 with ⟨r2, fs2, ef2⟩
    rw [hd] at h
    cases r2 with
    | error e => simp at h
    | ok pinfo =>
      obtain ⟨p0, i0⟩ := pinfo
      dsimp only at h
      rcases hs : screenshotStep t env fs2 cap st ofn p0 with ⟨r3, fs3x, ef3⟩
      rw [hs] at h
      cases r3 with
      | error e => simp at h
      | ok sp0 =>
        simp at h
        obtain ⟨⟨hp, hi, hsp⟩, hfs, heff⟩ := h
        subst hp
        subst hi
        subst hsp
        subst hfs
        refine ⟨info0, ef1, fs2, ef2, ef3, rfl, hd, hs, ?_⟩
        rw [← heff, List.append_assoc]

/-- An `ok` result of `download_audio` is always the requested target
path. -/
theorem download_audio_ok_target (env : Env) (fs : FS) (url dir fn : String) (uc : Bool)
    (p : String) (fs2 : FS) (ef : List Effect)
    (h : download_audio env fs url dir fn uc = (.ok p, fs2, ef)) :
    p = joinPath (expanduser env.home dir) fn := by
  simp only [download_audio] at h
  split at h
  · simp at h
  · split at h
    · simp at h
      exact h.1.symm
    · rcases ha : env.audioRun url with e | created <;> rw [ha] at h
      · simp at h
      · simp only [] at h
        split at h
        · simp at h
          exact h.1.symm
        · split at h
          · simp at h
            exact h.1.symm
          · simp at h

/-- An `ok` result of `download_video` is always the requested target
path. -/
theorem download_video_ok_target (env : Env) (fs : FS) (url dir fn : String) (uc : Bool)
    (p : String) (fs2 : FS) (ef : List Effect)
    (h : download_video env fs url dir fn uc = (.ok p, fs2, ef)) :
    p = joinPath (expanduser env.home dir) fn := by
  simp only [download_video] at h
  split at h
  · simp at h
  · split at h
    · simp at h
      exact h.1.symm
    · rcases hv : env.videoRun url with e | created <;> rw [hv] at h
      · simp at h
      · simp only [] at h
        split at h
        · simp at h
          exact h.1.symm
        · split at h
          · split at h
            · simp at h
              exact h.1.symm
            · simp at h
              exact h.1.symm
          · simp at h

/-- Any descriptor `load` produces has both path fields unset and a `type`
matching the url-prefix classification of the source. -/
theorem load_ok_shape (env : Env) (fs : FS) (src : String) (info : VideoInfo)
    (ef : List Effect) (h : load env fs src = (.ok info, ef)) :
    info.audio_path = none ∧ info.video_path = none
    ∧ (is_url src = true → info.type = "url")
    ∧ (is_url src = false → info.type = "file") := by
  unfold load at h
  cases hi : is_url src with
  | true =>
    rw [hi] at h
    simp only [if_true] at h
    unfold load_from_url at h
    split at h
    · simp at h
    · rcases he : env.extractInfo src with e | i <;> rw [he] at h
      · simp at h
      · simp at h
        obtain ⟨hinfo, -⟩ := h
        subst hinfo
        simp [hi]
  | false =>
    rw [hi] at h
    simp only [if_false, Bool.false_eq_true] at h
    simp only [load_from_file] at h
    split at h
    · simp at h
    · split at h
      · simp at h
      · split at h
        · simp at h
        all_goals
          simp at h
          obtain ⟨hinfo, -⟩ := h
          subst hinfo
          simp [hi]

/-- Shape of a successful download step: for a remote descriptor it
records the fetched target on exactly the path field of the effective
mode; for a local descriptor it returns `source` with the descriptor
untouched. -/
theorem downloadStep_ok_shape (t : YouTubeDLTool) (env : Env) (fs : FS) (url : String)
    (ao : Bool) (ofn : Option String) (uc : Bool) (info info2 : VideoInfo)
    (p : String) (fs2 : FS) (ef : List Effect)
    (h : downloadStep t env fs url ao ofn uc info = (.ok (p, info2), fs2, ef)) :
    (info.type = "url" ∧ ao = true
      ∧ p = joinPath (expanduser env.home t.output_dir)
          (if truthyStr ofn then ofn.getD "" else "audio.mp3")
      ∧ info2 = { info with audio_path := some p })
    ∨ (info.type = "url" ∧ ao = false
      ∧ p = joinPath (expanduser env.home t.output_dir)
          (if truthyStr ofn then ofn.getD "" else "video.mp4")
      ∧ info2 = { info with video_path := some p })
    ∨ (¬ info.type = "url" ∧ p = info.source ∧ info2 = info) := by
  unfold downloadStep at h
  split at h
  · next hurl =>
    cases hao : ao with
    | true =>
      rw [hao] at h
      simp only [if_true] at h
      rcases hd : download_audio env fs url t.output_dir
          (if truthyStr ofn then ofn.getD "" else "audio.mp3") uc with ⟨r, fs2x, efx⟩
      rw [hd] at h
      cases r with
      | error e => simp at h
      | ok p0 =>
        simp at h
        obtain ⟨⟨hp, hinfo⟩, -, -⟩ := h
        subst hp
        exact Or.inl ⟨hurl, rfl, download_audio_ok_target _ _ _ _ _ _ _ _ _ hd, hinfo.symm⟩
    | false =>
      rw [hao] at h
      simp only [Bool.false_eq_true, if_false] at h
      rcases hd : download_video env fs url t.output_dir
          (if truthyStr ofn then ofn.getD "" else "video.mp4") uc with ⟨r, fs2x, efx⟩
      rw [hd] at h
      cases r with
      | error e => simp at h
      | ok p0 =>
        simp at h
        obtain ⟨⟨hp, hinfo⟩, -, -⟩ := h
        subst hp
        exact Or.inr (Or.inl
          ⟨hurl, rfl, download_video_ok_target _ _ _ _ _ _ _ _ _ hd, hinfo.symm⟩)
  · next hurl =>
    simp at h
    exact Or.inr (Or.inr ⟨hurl, h.1.1.symm, h.1.2.symm⟩)

/-- An `ok` result of `capture_screenshot` is the user-expanded output
path. -/
theorem capture_screenshot_ok_value (env : Env) (fs : FS) (vp st out p2 : String)
    (fs2 : FS) (ef : List Effect)
    (h : capture_screenshot env fs vp st out = (.ok p2, fs2, ef)) :
    p2 = expanduser env.home out := by
  simp only [capture_screenshot] at h
  split at h
  · simp at h
  · rcases hf : env.ffmpegRun (expanduser env.home vp) st (expanduser env.home out)
        with - | m <;> rw [hf] at h <;> simp at h
    exact h.1.symm

/-- Shape of a successful screenshot step: with capture requested the
returned screenshot path is the user-expanded derived output path; without
capture it is `none`. -/
theorem screenshotStep_ok_shape (t : YouTubeDLTool) (env : Env) (fs : FS) (cap : Bool)
    (st : String) (ofn : Option String) (p : String) (sp : Option String)
    (fs3 : FS) (ef : List Effect)
    (h : screenshotStep t env fs cap st ofn p = (.ok sp, fs3, ef)) :
    (cap = true
      ∧ sp = some (expanduser env.home (joinPath t.output_dir (screenshotFilename ofn))))
    ∨ (cap = false ∧ sp = none) := by
  unfold screenshotStep at h
  cases hc : cap with
  | true =>
    rw [hc] at h
    simp only [if_true] at h
    left
    refine ⟨rfl, ?_⟩
    rcases hcs : capture_screenshot env fs p st
        (joinPath t.output_dir (screenshotFilename ofn)) with ⟨r, fs3x, efx⟩
    rw [hcs] at h
    cases r with
    | error e => simp at h
    | ok p2 =>
      simp at h
      obtain ⟨h1, -⟩ := h
      rw [← h1, capture_screenshot_ok_value env fs p st _ p2 fs3x efx hcs]
  | false =>
    rw [hc] at h
    simp only [Bool.false_eq_true, if_false] at h
    simp at h
    exact Or.inr ⟨rfl, h.1.symm⟩

/-- Forward evaluation of `load_from_file` when the file exists, is a
regular file, and the probe does not raise an uncaught exception. -/
theorem load_from_file_ok (env : Env) (fs : FS) (fp : String)
    (hex : fs.pathExists (expanduser env.home fp) = true)
    (hf : fs.isFile (expanduser env.home fp) = true)
    (hp : ∀ n m, env.probe (expanduser env.home fp) ≠ ProbeOutcome.raised n m) :
    load_from_file env fs fp =
      (.ok { source := absoluteStr env.cwd (expanduser env.home fp), type := "file",
             title := pathStem (expanduser env.home fp),
             id := pathStem (expanduser env.home fp),
             duration := probeDuration (env.probe (expanduser env.home fp)) },
       [Effect.probe (expanduser env.home fp)]) := by
  cases ho : env.probe (expanduser env.home fp) with
  | raised n m => exact absurd ho (hp n m)
  | ok d => simp [load_from_file, hex, hf, ho]
  | noDuration => simp [load_from_file, hex, hf, ho]
  | procError m => simp [load_from_file, hex, hf, ho]
  | jsonError m => simp [load_from_file, hex, hf, ho]
  | keyError m => simp [load_from_file, hex, hf, ho]

/-- `expanduser` leaves an absolute path unchanged. -/
theorem expanduser_absolute (home s : String) (h : strStartsWith "/" s = true) :
    expanduser home s = s := by
  obtain ⟨l⟩ := s
  cases l with
  | nil => simp [strStartsWith, List.isPrefixOf] at h
  | cons c cs =>
    simp [strStartsWith, List.isPrefixOf] at h
    rw [← h]
    rfl

/-- `absoluteStr` leaves an absolute path unchanged. -/
theorem absoluteStr_of_slash (cwd s : String) (h : strStartsWith "/" s = true) :
    absoluteStr cwd s = s := by
  obtain ⟨l⟩ := s
  cases l with
  | nil => simp [strStartsWith, List.isPrefixOf] at h
  | cons c cs =>
    simp [strStartsWith, List.isPrefixOf] at h
    rw [← h]
    rfl

/-- C3 counterexample: for the existing relative-path source "clip.mp4"
(with working directory "/w"), the run succeeds, the descriptor is local
with stem-derived id/title, but the returned file path is
"/w/clip.mp4" — not the input string verbatim. -/
theorem local_path_not_verbatim_cex :
    (execute t0 envProbeProc fsClip inpRel).1 =
      ToolResult.success "/w/clip.mp4"
        { source := "/w/clip.mp4", type := "file", title := "clip", id := "clip",
          duration := 0 } none
    ∧ inpRel.url = some "clip.mp4"
    ∧ ("/w/clip.mp4" : String) ≠ "clip.mp4" := by
  refine ⟨rfl, rfl, by decide⟩

/-- C3 (amended): for an existing local regular file whose probe raises
nothing uncaught, and a request without screenshot capture, the run
succeeds with kind "file", id and title equal to the stem, no fetch
effect; the returned path is `str(Path(input).expanduser().absolute())`,
which coincides with the input string when the input is absolute. -/
theorem local_file_resolution (t : YouTubeDLTool) (env : Env) (fs : FS) (inp : ToolInput)
    (hurl : truthyStr inp.url = true)
    (hlocal : is_url (inp.url.getD "") = false)
    (hex : fs.pathExists (expanduser env.home (inp.url.getD "")) = true)
    (hf : fs.isFile (expanduser env.home (inp.url.getD "")) = true)
    (hp : ∀ n m, env.probe (expanduser env.home (inp.url.getD "")) ≠ ProbeOutcome.raised n m)
    (hcap : inp.capture_screenshot.getD false = false) :
    execute t env fs inp =
      (ToolResult.success (absoluteStr env.cwd (expanduser env.home (inp.url.getD "")))
        { source := absoluteStr env.cwd (expanduser env.home (inp.url.getD "")),
          type := "file",
          title := pathStem (expanduser env.home (inp.url.getD "")),
          id := pathStem (expanduser env.home (inp.url.getD "")),
          duration := probeDuration (env.probe (expanduser env.home (inp.url.getD ""))) } none,
       fs, [Effect.probe (expanduser env.home (inp.url.getD ""))])
    ∧ (∀ m u, Effect.download m u ∉ (execute t env fs inp).2.2)
    ∧ (strStartsWith "/" (inp.url.getD "") = true →
        absoluteStr env.cwd (expanduser env.home (inp.url.getD "")) = inp.url.getD "") := by
  have hv : (inp.capture_screenshot.getD false && !truthyStr inp.screenshot_time) = false := by
    rw [hcap]
    exact Bool.false_and _
  have hload : load env fs (inp.url.getD "") =
      (.ok { source := absoluteStr env.cwd (expanduser env.home (inp.url.getD "")),
             type := "file",
             title := pathStem (expanduser env.home (inp.url.getD "")),
             id := pathStem (expanduser env.home (inp.url.getD "")),
             duration := probeDuration (env.probe (expanduser env.home (inp.url.getD ""))) },
       [Effect.probe (expanduser env.home (inp.url.getD ""))]) := by
    unfold load
    rw [hlocal]
    simp only [Bool.false_eq_true, if_false]
    exact load_from_file_ok env fs (inp.url.getD "") hex hf hp
  have hbody : executeBody t env fs (inp.url.getD "") (inp.audio_only.getD t.audio_only)
      inp.output_filename (inp.use_cache.getD true) (inp.capture_screenshot.getD false)
      (inp.screenshot_time.getD "") =
      (.ok (absoluteStr env.cwd (expanduser env.home (inp.url.getD "")),
        { source := absoluteStr env.cwd (expanduser env.home (inp.url.getD "")),
          type := "file",
          title := pathStem (expanduser env.home (inp.url.getD "")),
          id := pathStem (expanduser env.home (inp.url.getD "")),
          duration := probeDuration (env.probe (expanduser env.home (inp.url.getD ""))) }, none),
       fs, [Effect.probe (expanduser env.home (inp.url.getD ""))]) := by
    unfold executeBody
    rw [hload]
    dsimp only
    rw [hcap]
    simp [downloadStep, screenshotStep]
  have hmain : execute t env fs inp =
      (ToolResult.success (absoluteStr env.cwd (expanduser env.home (inp.url.getD "")))
        { source := absoluteStr env.cwd (expanduser env.home (inp.url.getD "")),
          type := "file",
          title := pathStem (expanduser env.home (inp.url.getD "")),
          id := pathStem (expanduser env.home (inp.url.getD "")),
          duration := probeDuration (env.probe (expanduser env.home (inp.url.getD ""))) } none,
       fs, [Effect.probe (expanduser env.home (inp.url.getD ""))]) := by
    simp only [execute, hurl, hv, hbody, Bool.not_true, Bool.false_eq_true, if_false]
  refine ⟨hmain, ?_, ?_⟩
  · rw [hmain]
    intro m u
    simp
  · intro hs
    rw [expanduser_absolute env.home _ hs, absoluteStr_of_slash env.cwd _ hs]

/-- Witness for the amended C3 at the concrete relative input. -/
theorem local_file_resolution_wit :
    truthyStr inpRel.url = true
    ∧ is_url (inpRel.url.getD "") = false
    ∧ fsClip.pathExists (expanduser envProbeProc.home (inpRel.url.getD "")) = true
    ∧ fsClip.isFile (expanduser envProbeProc.home (inpRel.url.getD "")) = true
    ∧ (∀ n m, envProbeProc.probe (expanduser envProbeProc.home (inpRel.url.getD "")) ≠
        ProbeOutcome.raised n m)
    ∧ inpRel.capture_screenshot.getD false = false
    ∧ (execute t0 envProbeProc fsClip inpRel =
        (ToolResult.success (absoluteStr envProbeProc.cwd
            (expanduser envProbeProc.home (inpRel.url.getD "")))
          { source := absoluteStr envProbeProc.cwd
              (expanduser envProbeProc.home (inpRel.url.getD "")),
            type := "file",
            title := pathStem (expanduser envProbeProc.home (inpRel.url.getD "")),
            id := pathStem (expanduser envProbeProc.home (inpRel.url.getD "")),
            duration := probeDuration (envProbeProc.probe
              (expanduser envProbeProc.home (inpRel.url.getD ""))) } none,
         fsClip, [Effect.probe (expanduser envProbeProc.home (inpRel.url.getD ""))])
      ∧ (∀ m u, Effect.download m u ∉ (execute t0 envProbeProc fsClip inpRel).2.2)
      ∧ (strStartsWith "/" (inpRel.url.getD "") = true →
          absoluteStr envProbeProc.cwd (expanduser envProbeProc.home (inpRel.url.getD "")) =
            inpRel.url.getD "")) :=
  ⟨rfl, rfl, rfl, rfl, fun _ _ h => ProbeOutcome.noConfusion h, rfl,
    local_file_resolution t0 envProbeProc fsClip inpRel rfl rfl rfl rfl
      (fun _ _ h => ProbeOutcome.noConfusion h) rfl⟩

/-- C4 counterexample: when the probe raises an exception outside the
caught tuple (here the ffprobe binary is missing), resolution of an
existing local file fails instead of degrading the duration to 0. -/
theorem probe_raised_is_fatal_cex :
    (execute t0 envProbeRaise fsClip inpRel).1 =
      ToolResult.failure "no ffprobe" (some "FileNotFoundError") := by rfl

/-- C4 (amended): a probe failure of one of the three caught classes
(process error, JSON decode error, missing key) is non-fatal: resolution
still succeeds and the descriptor's duration degrades to 0. -/
theorem probe_handled_errors_nonfatal (env : Env) (fs : FS) (fp m : String)
    (hex : fs.pathExists (expanduser env.home fp) = true)
    (hf : fs.isFile (expanduser env.home fp) = true)
    (hh : env.probe (expanduser env.home fp) = ProbeOutcome.procError m
        ∨ env.probe (expanduser env.home fp) = ProbeOutcome.jsonError m
        ∨ env.probe (expanduser env.home fp) = ProbeOutcome.keyError m) :
    load_from_file env fs fp =
      (.ok { source := absoluteStr env.cwd (expanduser env.home fp), type := "file",
             title := pathStem (expanduser env.home fp),
             id := pathStem (expanduser env.home fp), duration := 0 },
       [Effect.probe (expanduser env.home fp)]) := by
  have hp : ∀ n m2, env.probe (expanduser env.home fp) ≠ ProbeOutcome.raised n m2 := by
    rcases hh with h | h | h <;> rw [h] <;> intro n m2 hcon <;>
      exact ProbeOutcome.noConfusion hcon
  have hd : probeDuration (env.probe (expanduser env.home fp)) = 0 := by
    rcases hh with h | h | h <;> rw [h] <;> rfl
  rw [load_from_file_ok env fs fp hex hf hp, hd]

/-- Witness for the amended C4 at the concrete probe-process-error world. -/
theorem probe_handled_errors_nonfatal_wit :
    fsClip.pathExists (expanduser envProbeProc.home "clip.mp4") = true
    ∧ fsClip.isFile (expanduser envProbeProc.home "clip.mp4") = true
    ∧ (envProbeProc.probe (expanduser envProbeProc.home "clip.mp4") =
        ProbeOutcome.procError "ffprobe exited 1"
      ∨ envProbeProc.probe (expanduser envProbeProc.home "clip.mp4") =
        ProbeOutcome.jsonError "ffprobe exited 1"
      ∨ envProbeProc.probe (expanduser envProbeProc.home "clip.mp4") =
        ProbeOutcome.keyError "ffprobe exited 1")
    ∧ load_from_file envProbeProc fsClip "clip.mp4" =
      (.ok { source := absoluteStr envProbeProc.cwd (expanduser envProbeProc.home "clip.mp4"),
             type := "file",
             title := pathStem (expanduser envProbeProc.home "clip.mp4"),
             id := pathStem (expanduser envProbeProc.home "clip.mp4"), duration := 0 },
       [Effect.probe (expanduser envProbeProc.home "clip.mp4")]) :=
  ⟨rfl, rfl, Or.inl rfl,
    probe_handled_errors_nonfatal envProbeProc fsClip "clip.mp4" "ffprobe exited 1"
      rfl rfl (Or.inl rfl)⟩

/-- String append is associative. -/
theorem str_append_assoc (a b c : String) : a ++ b ++ c = a ++ (b ++ c) := by
  obtain ⟨la⟩ := a
  obtain ⟨lb⟩ := b
  obtain ⟨lc⟩ := c
  show String.mk (la ++ lb ++ lc) = String.mk (la ++ (lb ++ lc))
  rw [List.append_assoc]

/-- C10: in every success result at most one media path is recorded:
for a local descriptor both are unset; for a remote descriptor exactly the
field matching the effective `audio_only` flag is set, to the returned
path. -/
theorem at_most_one_media_path (t : YouTubeDLTool) (env : Env) (fs : FS) (inp : ToolInput)
    (p : String) (info : VideoInfo) (sp : Option String)
    (hsucc : (execute t env fs inp).1 = ToolResult.success p info sp) :
    (info.type = "file" → info.audio_path = none ∧ info.video_path = none)
    ∧ (info.type = "url" →
        (inp.audio_only.getD t.audio_only = true →
          info.audio_path = some p ∧ info.video_path = none)
      ∧ (inp.audio_only.getD t.audio_only = false →
          info.video_path = some p ∧ info.audio_path = none))
    ∧ (info.type = "url" ∨ info.type = "file") := by
  obtain ⟨hu, hv, fs2, eff, hb⟩ := execute_success_body t env fs inp p info sp hsucc
  obtain ⟨info0, ef1, fs2x, ef2, ef3, hl, hd, hs, -⟩ :=
    executeBody_ok_parts t env fs _ _ _ _ _ _ p info sp fs2 eff hb
  obtain ⟨ha0, hv0, hurl0, hfile0⟩ := load_ok_shape env fs _ info0 ef1 hl
  rcases downloadStep_ok_shape t env fs _ _ _ _ info0 info p fs2x ef2 hd with
    ⟨ht0, hao, hp, hinfo⟩ | ⟨ht0, hao, hp, hinfo⟩ | ⟨ht0, hp2, hinfo⟩
  · subst hinfo
    refine ⟨?_, fun _ => ⟨fun _ => ⟨by simp, by simp [hv0]⟩, fun hfalse => ?_⟩, ?_⟩
    · intro hft
      dsimp only at hft
      rw [ht0] at hft
      exact absurd hft (by decide)
    · rw [hao] at hfalse
      exact absurd hfalse (by decide)
    · left
      dsimp only
      exact ht0
  · subst hinfo
    refine ⟨?_, fun _ => ⟨fun htrue => ?_, fun _ => ⟨by simp, by simp [ha0]⟩⟩, ?_⟩
    · intro hft
      dsimp only at hft
      rw [ht0] at hft
      exact absurd hft (by decide)
    · rw [hao] at htrue
      exact absurd htrue (by decide)
    · left
      dsimp only
      exact ht0
  · subst hinfo
    cases hiu : is_url (inp.url.getD "") with
    | true => exact absurd (hurl0 hiu) ht0
    | false =>
      have htf := hfile0 hiu
      refine ⟨fun _ => ⟨ha0, hv0⟩, ?_, Or.inr htf⟩
      intro hurl
      rw [htf] at hurl
      exact absurd hurl (by decide)

/-- A remote request with the effective flag true. -/
def inpAud : ToolInput := { url := some "http://v" }

/-- The descriptor the benign world produces for `inpAud`. -/
def infoAud : VideoInfo :=
  { source := "http://v", type := "url", title := "T", id := "vid", duration := 10,
    audio_path := some "/out/audio.mp3" }

/-- Witness for C10 at a concrete successful remote audio fetch. -/
theorem at_most_one_media_path_wit :
    (execute t0 envOk fsE inpAud).1 = ToolResult.success "/out/audio.mp3" infoAud none
    ∧ ((infoAud.type = "file" → infoAud.audio_path = none ∧ infoAud.video_path = none)
      ∧ (infoAud.type = "url" →
          (inpAud.audio_only.getD t0.audio_only = true →
            infoAud.audio_path = some "/out/audio.mp3" ∧ infoAud.video_path = none)
        ∧ (inpAud.audio_only.getD t0.audio_only = false →
            infoAud.video_path = some "/out/audio.mp3" ∧ infoAud.audio_path = none))
      ∧ (infoAud.type = "url" ∨ infoAud.type = "file")) :=
  ⟨rfl, at_most_one_media_path t0 envOk fsE inpAud "/out/audio.mp3" infoAud none rfl⟩

/-- A remote request with a custom non-".mp3" output filename. -/
def inp6 : ToolInput := { url := some "http://v", output_filename := some "clip.wav" }

/-- The descriptor the benign world produces for `inp6` (cached file). -/
def info6 : VideoInfo :=
  { source := "http://v", type := "url", title := "T", id := "vid", duration := 10,
    audio_path := some "/out/clip.wav" }

/-- C6 counterexample: a successful remote audio fetch whose requested
filename is "clip.wav" returns a path that does not end in the audio
extension ".mp3" (while `audio_path` still equals it and `video_path` is
unset). -/
theorem audio_path_extension_cex :
    (execute t0 envOk fsWav inp6).1 = ToolResult.success "/out/clip.wav" info6 none
    ∧ (∀ pre : String, ("/out/clip.wav" : String) ≠ pre ++ ".mp3") := by
  refine ⟨rfl, ?_⟩
  intro pre h
  have h2 := congrArg lastChar h
  rw [lastChar_append] at h2
  · exact absurd h2 (by decide)
  · decide

/-- C6 (amended): for a remote source with effective `audio_only = true`,
a success returns exactly `output_dir / (output_filename or "audio.mp3")`;
`metadata.audio_path` equals that path and `metadata.video_path` is unset;
the path ends in the audio extension ".mp3" whenever no output filename
was requested. -/
theorem audio_fetch_result_paths (t : YouTubeDLTool) (env : Env) (fs : FS) (inp : ToolInput)
    (p : String) (info : VideoInfo) (sp : Option String)
    (hremote : is_url (inp.url.getD "") = true)
    (hao : inp.audio_only.getD t.audio_only = true)
    (hsucc : (execute t env fs inp).1 = ToolResult.success p info sp) :
    p = joinPath (expanduser env.home t.output_dir)
        (if truthyStr inp.output_filename then inp.output_filename.getD "" else "audio.mp3")
    ∧ info.audio_path = some p
    ∧ info.video_path = none
    ∧ (truthyStr inp.output_filename = false → ∃ pre, p = pre ++ ".mp3") := by
  obtain ⟨hu, hv, fs2, eff, hb⟩ := execute_success_body t env fs inp p info sp hsucc
  obtain ⟨info0, ef1, fs2x, ef2, ef3, hl, hd, hs, -⟩ :=
    executeBody_ok_parts t env fs _ _ _ _ _ _ p info sp fs2 eff hb
  obtain ⟨ha0, hv0, hurl0, hfile0⟩ := load_ok_shape env fs _ info0 ef1 hl
  rcases downloadStep_ok_shape t env fs _ _ _ _ info0 info p fs2x ef2 hd with
    ⟨ht0, -, hp, hinfo⟩ | ⟨ht0, haoF, -, -⟩ | ⟨ht0, -, -⟩
  · subst hinfo
    refine ⟨hp, by simp, by simp [hv0], ?_⟩
    intro hofn
    rw [hp]
    simp only [hofn, Bool.false_eq_true, if_false]
    refine ⟨expanduser env.home t.output_dir ++ "/" ++ "audio", ?_⟩
    rw [str_append_assoc (expanduser env.home t.output_dir ++ "/") "audio" ".mp3"]
    rfl
  · rw [hao] at haoF
    exact absurd haoF (by decide)
  · exact absurd (hurl0 hremote) ht0

/-- Witness for the amended C6 at a concrete default-filename fetch. -/
theorem audio_fetch_result_paths_wit :
    is_url (inpAud.url.getD "") = true
    ∧ inpAud.audio_only.getD t0.audio_only = true
    ∧ (execute t0 envOk fsE inpAud).1 = ToolResult.success "/out/audio.mp3" infoAud none
    ∧ ("/out/audio.mp3" = joinPath (expanduser envOk.home t0.output_dir)
          (if truthyStr inpAud.output_filename then inpAud.output_filename.getD ""
            else "audio.mp3")
      ∧ infoAud.audio_path = some "/out/audio.mp3"
      ∧ infoAud.video_path = none
      ∧ (truthyStr inpAud.output_filename = false →
          ∃ pre, "/out/audio.mp3" = pre ++ ".mp3")) :=
  ⟨rfl, rfl, rfl,
    audio_fetch_result_paths t0 envOk fsE inpAud "/out/audio.mp3" infoAud none rfl rfl rfl⟩

/-- A remote video request with screenshot capture whose explicit output
filename contains no ".mp4". -/
def inp5 : ToolInput :=
  { url := some "http://v", audio_only := some false, output_filename := some "video.webm",
    capture_screenshot := some true, screenshot_time := some "00:00:01" }

/-- The descriptor the benign world produces for `inp5` (cached file). -/
def info5 : VideoInfo :=
  { source := "http://v", type := "url", title := "T", id := "vid", duration := 10,
    video_path := some "/out/video.webm" }

/-- C5 counterexample: with `output_filename = "video.webm"` the derived
screenshot name is unchanged by the ".mp4" swap, so the screenshot is
written over the media file itself: `screenshot_path` equals the media
file path instead of being distinct from it. -/
theorem screenshot_name_collision_cex :
    (execute t0 envOk fsWebm inp5).1 =
      ToolResult.success "/out/video.webm" info5 (some "/out/video.webm") := by rfl

/-- C5 (amended): after a successful remote video fetch with
`capture_screenshot = true`, the screenshot path is always
`output_dir / (output_filename.replace(".mp4", ".jpg") if output_filename
else "screenshot.jpg")` (user-expanded); it is distinct from the media
file path whenever no explicit output filename was given (an explicit
filename without ".mp4" makes the two coincide, as the counterexample
shows). -/
theorem screenshot_default_distinct (t : YouTubeDLTool) (env : Env) (fs : FS) (inp : ToolInput)
    (p : String) (info : VideoInfo) (sp : Option String)
    (hremote : is_url (inp.url.getD "") = true)
    (hao : inp.audio_only.getD t.audio_only = false)
    (hcap : inp.capture_screenshot.getD false = true)
    (hsucc : (execute t env fs inp).1 = ToolResult.success p info sp) :
    sp = some (expanduser env.home
        (joinPath t.output_dir (screenshotFilename inp.output_filename)))
    ∧ (truthyStr inp.output_filename = false → sp ≠ some p) := by
  obtain ⟨hu, hv, fs2, eff, hb⟩ := execute_success_body t env fs inp p info sp hsucc
  obtain ⟨info0, ef1, fs2x, ef2, ef3, hl, hd, hs, -⟩ :=
    executeBody_ok_parts t env fs _ _ _ _ _ _ p info sp fs2 eff hb
  obtain ⟨-, -, hurl0, -⟩ := load_ok_shape env fs _ info0 ef1 hl
  rcases screenshotStep_ok_shape t env fs2x _ _ _ p sp fs2 ef3 hs with ⟨-, hsp⟩ | ⟨hcf, -⟩
  · refine ⟨hsp, ?_⟩
    intro hofn
    have hsf : screenshotFilename inp.output_filename = "screenshot.jpg" := by
      simp [screenshotFilename, hofn]
    rcases downloadStep_ok_shape t env fs _ _ _ _ info0 info p fs2x ef2 hd with
      ⟨-, haoT, -, -⟩ | ⟨-, -, hp, -⟩ | ⟨ht0, -, -⟩
    · rw [hao] at haoT
      exact absurd haoT (by decide)
    · simp only [hofn, Bool.false_eq_true, if_false] at hp
      rw [hsp, hp, hsf]
      have l1 : lastChar (expanduser env.home (joinPath t.output_dir "screenshot.jpg")) =
          some 'g' := by
        rw [lastChar_expanduser]
        · rw [lastChar_joinPath]
          · rfl
          · decide
        · rw [joinPath_data_length]
          have h14 : ("screenshot.jpg" : String).data.length = 14 := rfl
          omega
      have l2 : lastChar (joinPath (expanduser env.home t.output_dir) "video.mp4") =
          some '4' := by
        rw [lastChar_joinPath]
        · rfl
        · decide
      intro heq
      injection heq with heq2
      rw [heq2, l2] at l1
      exact absurd l1 (by decide)
    · exact absurd (hurl0 hremote) ht0
  · rw [hcap] at hcf
    exact absurd hcf (by decide)

/-- A remote video request with screenshot capture and no explicit output
filename. -/
def inp5w : ToolInput :=
  { url := some "http://v", audio_only := some false,
    capture_screenshot := some true, screenshot_time := some "00:00:01" }

/-- The descriptor the benign world produces for `inp5w`. -/
def info5w : VideoInfo :=
  { source := "http://v", type := "url", title := "T", id := "vid", duration := 10,
    video_path := some "/out/video.mp4" }

/-- Witness for the amended C5 at a concrete default-filename run. -/
theorem screenshot_default_distinct_wit :
    is_url (inp5w.url.getD "") = true
    ∧ inp5w.audio_only.getD t0.audio_only = false
    ∧ inp5w.capture_screenshot.getD false = true
    ∧ (execute t0 envOk fsE inp5w).1 =
        ToolResult.success "/out/video.mp4" info5w (some "/out/screenshot.jpg")
    ∧ (some "/out/screenshot.jpg" = some (expanduser envOk.home
          (joinPath t0.output_dir (screenshotFilename inp5w.output_filename)))
      ∧ (truthyStr inp5w.output_filename = false →
          (some "/out/screenshot.jpg" : Option String) ≠ some "/out/video.mp4")) :=
  ⟨rfl, rfl, rfl, rfl,
    screenshot_default_distinct t0 envOk fsE inp5w "/out/video.mp4" info5w
      (some "/out/screenshot.jpg") rfl rfl rfl rfl⟩

/-- `download_video` never emits an audio-mode download effect. -/
theorem download_video_no_audio_effect (env : Env) (fs : FS) (url dir fn : String) (uc : Bool)
    (u : String) :
    Effect.download DlMode.audio u ∉ (download_video env fs url dir fn uc).2.2 := by
  simp only [download_video]
  split
  · simp
  · split
    · simp
    · split
      · simp
      · split
        · simp
        · split
          · split <;> simp
          · simp

/-- `capture_screenshot` never emits a download effect. -/
theorem capture_screenshot_no_download (env : Env) (fs : FS) (vp st out : String)
    (m : DlMode) (u : String) :
    Effect.download m u ∉ (capture_screenshot env fs vp st out).2.2 := by
  simp only [capture_screenshot]
  split
  · simp
  · split <;> simp

/-- The screenshot step never emits a download effect. -/
theorem screenshotStep_no_download_effect (t : YouTubeDLTool) (env : Env) (fs : FS)
    (cap : Bool) (st : String) (ofn : Option String) (p : String) (m : DlMode) (u : String) :
    Effect.download m u ∉ (screenshotStep t env fs cap st ofn p).2.2 := by
  unfold screenshotStep
  split
  · rcases hc : capture_screenshot env fs p st
        (joinPath t.output_dir (screenshotFilename ofn)) with ⟨r, fs3, ef⟩
    have h0 := capture_screenshot_no_download env fs p st
        (joinPath t.output_dir (screenshotFilename ofn)) m u
    rw [hc] at h0
    cases r <;> exact h0
  · simp

/-- Resolution never emits a download effect. -/
theorem load_no_download_effect (env : Env) (fs : FS) (src : String) (m : DlMode)
    (u : String) : Effect.download m u ∉ (load env fs src).2 := by
  unfold load
  split
  · simp only [load_from_url]
    split
    · simp
    · split <;> simp
  · simp only [load_from_file]
    split
    · simp
    · split
      · simp
      · split <;> simp

/-- With an effective `audio_only = false`, the download step never emits
an audio-mode download effect. -/
theorem downloadStep_no_audio_effect (t : YouTubeDLTool) (env : Env) (fs : FS) (url : String)
    (ofn : Option String) (uc : Bool) (info : VideoInfo) (u : String) :
    Effect.download DlMode.audio u ∉ (downloadStep t env fs url false ofn uc info).2.2 := by
  unfold downloadStep
  split
  · simp only [Bool.false_eq_true, if_false]
    rcases hd : download_video env fs url t.output_dir
        (if truthyStr ofn then ofn.getD "" else "video.mp4") uc with ⟨r, fs2, ef⟩
    have h0 := download_video_no_audio_effect env fs url t.output_dir
        (if truthyStr ofn then ofn.getD "" else "video.mp4") uc u
    rw [hd] at h0
    cases r <;> exact h0
  · simp

/-- With an effective `audio_only = false`, the whole body never emits an
audio-mode download effect, whatever the outcome. -/
theorem executeBody_no_audio_effect (t : YouTubeDLTool) (env : Env) (fs : FS) (url : String)
    (ofn : Option String) (uc cap : Bool) (st : String) (u : String) :
    Effect.download DlMode.audio u ∉ (executeBody t env fs url false ofn uc cap st).2.2 := by
  unfold executeBody
  rcases hl : load env fs url with ⟨r1, ef1⟩
  have hl0 := load_no_download_effect env fs url DlMode.audio u
  rw [hl] at hl0
  cases r1 with
  | error e => exact hl0
  | ok info0 =>
    dsimp only
    rcases hd : downloadStep t env fs url false ofn uc info0 with ⟨r2, fs2, ef2⟩
    have hd0 := downloadStep_no_audio_effect t env fs url ofn uc info0 u
    rw [hd] at hd0
    cases r2 with
    | error e =>
      dsimp only
      simp only [List.mem_append]
      rintro (h | h)
      · exact hl0 h
      · exact hd0 h
    | ok pinfo =>
      dsimp only
      rcases hs : screenshotStep t env fs2 cap st ofn pinfo.1 with ⟨r3, fs3, ef3⟩
      have hs0 := screenshotStep_no_download_effect t env fs2 cap st ofn pinfo.1 DlMode.audio u
      rw [hs] at hs0
      cases r3 <;>
        (dsimp only
         simp only [List.mem_append]
         rintro ((h | h) | h) <;> first | exact hl0 h | exact hd0 h | exact hs0 h)

/-- Past the validations, `execute`'s trace is the body's trace. -/
theorem execute_trace (t : YouTubeDLTool) (env : Env) (fs : FS) (inp : ToolInput)
    (hurl : truthyStr inp.url = true)
    (hval : (inp.capture_screenshot.getD false && !truthyStr inp.screenshot_time) = false) :
    (execute t env fs inp).2.2 =
      (executeBody t env fs (inp.url.getD "") (inp.audio_only.getD t.audio_only)
        inp.output_filename (inp.use_cache.getD true) (inp.capture_screenshot.getD false)
        (inp.screenshot_time.getD "")).2.2 := by
  simp only [execute, hurl, hval, Bool.not_true, Bool.false_eq_true, if_false]
  rcases hb : executeBody t env fs (inp.url.getD "") (inp.audio_only.getD t.audio_only)
      inp.output_filename (inp.use_cache.getD true) (inp.capture_screenshot.getD false)
      (inp.screenshot_time.getD "") with ⟨r, fs2, eff⟩
  cases r with
  | ok r0 => rfl
  | error e =>
    dsimp only
    split <;> rfl

/-- Once past the availability guard with a cache miss (or caching off),
`download_video` always emits its download effect. -/
theorem download_video_effect_present (env : Env) (fs : FS) (url dir fn : String) (uc : Bool)
    (hyt : env.ytAvailable = true)
    (hc : (uc && fs.pathExists (joinPath (expanduser env.home dir) fn)) = false) :
    Effect.download DlMode.video url ∈ (download_video env fs url dir fn uc).2.2 := by
  simp only [download_video, hyt, Bool.not_true, Bool.false_eq_true, if_false, hc]
  split
  · simp
  · split
    · simp
    · split
      · split <;> simp
      · simp

/-- For a remote descriptor with effective `audio_only = false` and a
cache miss, the download step emits the video download effect. -/
theorem downloadStep_video_effect (t : YouTubeDLTool) (env : Env) (fs : FS) (url : String)
    (ofn : Option String) (uc : Bool) (info : VideoInfo)
    (htype : info.type = "url")
    (hyt : env.ytAvailable = true)
    (hc : (uc && fs.pathExists (joinPath (expanduser env.home t.output_dir)
        (if truthyStr ofn then ofn.getD "" else "video.mp4"))) = false) :
    Effect.download DlMode.video url ∈ (downloadStep t env fs url false ofn uc info).2.2 := by
  unfold downloadStep
  split
  · simp only [Bool.false_eq_true, if_false]
    rcases hd : download_video env fs url t.output_dir
        (if truthyStr ofn then ofn.getD "" else "video.mp4") uc with ⟨r, fs2, ef⟩
    have h0 := download_video_effect_present env fs url t.output_dir
        (if truthyStr ofn then ofn.getD "" else "video.mp4") uc hyt hc
    rw [hd] at h0
    cases r <;> exact h0
  · next hne => exact absurd htype hne

/-- For a resolvable remote source with effective `audio_only = false` and
a cache miss, the body emits the video download effect. -/
theorem executeBody_video_effect (t : YouTubeDLTool) (env : Env) (fs : FS) (url : String)
    (ofn : Option String) (uc cap : Bool) (st : String) (i : YtInfo)
    (hremote : is_url url = true)
    (hyt : env.ytAvailable = true)
    (hi : env.extractInfo url = Except.ok i)
    (hc : (uc && fs.pathExists (joinPath (expanduser env.home t.output_dir)
        (if truthyStr ofn then ofn.getD "" else "video.mp4"))) = false) :
    Effect.download DlMode.video url ∈ (executeBody t env fs url false ofn uc cap st).2.2 := by
  have hload : load env fs url =
      (.ok { source := url, type := "url", title := i.title.getD "Unknown",
             id := i.id.getD url, duration := i.duration.getD 0,
             description := i.description.getD "", uploader := i.uploader.getD "" },
       [Effect.extractMeta url]) := by
    unfold load
    rw [hremote]
    simp [load_from_url, hyt, hi]
  unfold executeBody
  rw [hload]
  dsimp only
  rcases hd : downloadStep t env fs url false ofn uc
      { source := url, type := "url", title := i.title.getD "Unknown",
        id := i.id.getD url, duration := i.duration.getD 0,
        description := i.description.getD "", uploader := i.uploader.getD "" }
    with ⟨r2, fs2, ef2⟩
  have hvid := downloadStep_video_effect t env fs url ofn uc
      { source := url, type := "url", title := i.title.getD "Unknown",
        id := i.id.getD url, duration := i.duration.getD 0,
        description := i.description.getD "", uploader := i.uploader.getD "" }
      rfl hyt hc
  rw [hd] at hvid
  cases r2 with
  | error e =>
    dsimp only
    simp only [List.mem_append]
    exact Or.inr hvid
  | ok pinfo =>
    dsimp only
    rcases hs : screenshotStep t env fs2 cap st ofn pinfo.1 with ⟨r3, fs3, ef3⟩
    cases r3 <;>
      (dsimp only
       simp only [List.mem_append]
       exact Or.inl (Or.inr hvid))

/-- C7: a request-level `audio_only = false` overrides a configured
`audio_only = true`: the effective flag is false, no audio fetch is ever
performed, and (for a resolvable remote source, cache miss) the video
fetch is performed; a request omitting the flag falls back to the
configured default. -/
theorem audio_only_override_precedence (t : YouTubeDLTool) (env : Env) (fs : FS)
    (inp : ToolInput) (i : YtInfo)
    (hurl : truthyStr inp.url = true)
    (hremote : is_url (inp.url.getD "") = true)
    (hval : (inp.capture_screenshot.getD false && !truthyStr inp.screenshot_time) = false)
    (hyt : env.ytAvailable = true)
    (hi : env.extractInfo (inp.url.getD "") = Except.ok i)
    (hov : inp.audio_only = some false) :
    inp.audio_only.getD t.audio_only = false
    ∧ (∀ u, Effect.download DlMode.audio u ∉ (execute t env fs inp).2.2)
    ∧ ((inp.use_cache.getD true && fs.pathExists (joinPath (expanduser env.home t.output_dir)
          (if truthyStr inp.output_filename then inp.output_filename.getD ""
            else "video.mp4"))) = false →
        Effect.download DlMode.video (inp.url.getD "") ∈ (execute t env fs inp).2.2)
    ∧ (inp.audio_only = none → inp.audio_only.getD t.audio_only = t.audio_only) := by
  have hao : inp.audio_only.getD t.audio_only = false := by rw [hov]; rfl
  have htr := execute_trace t env fs inp hurl hval
  refine ⟨hao, ?_, ?_, fun hnone => by rw [hnone]; rfl⟩
  · intro u
    rw [htr, hao]
    exact executeBody_no_audio_effect t env fs (inp.url.getD "") inp.output_filename
      (inp.use_cache.getD true) (inp.capture_screenshot.getD false)
      (inp.screenshot_time.getD "") u
  · intro hc
    rw [htr, hao]
    exact executeBody_video_effect t env fs (inp.url.getD "") inp.output_filename
      (inp.use_cache.getD true) (inp.capture_screenshot.getD false)
      (inp.screenshot_time.getD "") i hremote hyt hi hc

/-- A remote request overriding the configured audio default. -/
def inp7 : ToolInput := { url := some "http://v", audio_only := some false }

/-- The metadata record `envOk` serves for every url. -/
def ytOk : YtInfo :=
  { title := some "T", id := some "vid", duration := some 10,
    description := some "", uploader := some "" }

/-- Witness for C7 at a concrete override request against the configured
`audio_only = true` tool. -/
theorem audio_only_override_precedence_wit :
    truthyStr inp7.url = true
    ∧ is_url (inp7.url.getD "") = true
    ∧ (inp7.capture_screenshot.getD false && !truthyStr inp7.screenshot_time) = false
    ∧ envOk.ytAvailable = true
    ∧ envOk.extractInfo (inp7.url.getD "") = Except.ok ytOk
    ∧ inp7.audio_only = some false
    ∧ (inp7.audio_only.getD t0.audio_only = false
      ∧ (∀ u, Effect.download DlMode.audio u ∉ (execute t0 envOk fsE inp7).2.2)
      ∧ ((inp7.use_cache.getD true && fsE.pathExists
            (joinPath (expanduser envOk.home t0.output_dir)
              (if truthyStr inp7.output_filename then inp7.output_filename.getD ""
                else "video.mp4"))) = false →
          Effect.download DlMode.video (inp7.url.getD "") ∈ (execute t0 envOk fsE inp7).2.2)
      ∧ (inp7.audio_only = none → inp7.audio_only.getD t0.audio_only = t0.audio_only)) :=
  ⟨rfl, rfl, rfl, rfl, rfl, rfl,
    audio_only_override_precedence t0 envOk fsE inp7 ytOk rfl rfl rfl rfl rfl rfl⟩
